import Mathlib

/-!
Verification of the ShoreSquad service worker (`sw.js`).

The service worker is embedded shallowly: a cache is a list of
(request-key, response) pairs, the cache storage is an ordered list of
named caches, and each event listener (install, activate, fetch, push)
becomes a pure Lean function over these states.  Asynchronous effects are
sequentialised; the fire-and-forget cache store in the fetch handler is
modelled by an explicit `storeSucceeds` flag so that the delivered
response can be compared across the two outcomes of the background task.
-/

namespace ShoreSquadSW

/-- A response snapshot: HTTP status, response type
(`"basic"`, `"cors"`, `"opaque"`, `"error"`, ...) and body. -/
structure Response where
  status : Nat
  rtype : String
  body : String
deriving Repr, DecidableEq

/-- An intercepted request: HTTP method and URL (the request key). -/
structure Request where
  method : String
  url : String
deriving Repr, DecidableEq

/-- A single cache generation: an association list from request keys to
response snapshots. -/
abbrev Cache : Type := List (String × Response)

/-- The cache storage: an ordered list of named cache generations, in
creation order (the order `caches.match` consults them). -/
abbrev CacheStorage : Type := List (String × Cache)

/-- `const CACHE_NAME = 'shoresquad-v1'` — the current cache generation. -/
def CACHE_NAME : String := "shoresquad-v1"

/-- `const ASSETS_TO_CACHE = [...]` — the app-shell asset manifest. -/
def ASSETS_TO_CACHE : List String :=
  ["/", "/index.html", "/css/styles.css", "/js/app.js", "/manifest.json"]

/-- Lookup in an association list with string keys (shared shape of
`cache.match` on keys and `caches.open` on cache names). -/
def findAssoc {α : Type} (l : List (String × α)) (k : String) : Option α :=
  (l.find? (fun e => e.1 = k)).map Prod.snd

/-- Overwrite-or-append in an association list with string keys (shared
shape of `cache.put` on keys and of writing an opened cache back into the
storage). -/
def putAssoc {α : Type} (l : List (String × α)) (k : String) (v : α) :
    List (String × α) :=
  if l.any (fun e => e.1 = k) then
    l.map (fun e => if e.1 = k then (k, v) else e)
  else
    l ++ [(k, v)]

/-- `cache.match(key)`: first entry stored under `key`, if any. -/
def cacheMatch (c : Cache) (k : String) : Option Response :=
  findAssoc c k

/-- Whether a cache has an entry for `k`. -/
def cacheHasKey (c : Cache) (k : String) : Bool :=
  (cacheMatch c k).isSome

/-- `caches.match(key)` (no cache name given): consult every cache
generation in order and return the first hit. -/
def cachesMatch (storage : CacheStorage) (k : String) : Option Response :=
  match storage with
  | [] => none
  | c :: rest =>
    match cacheMatch c.2 k with
    | some r => some r
    | none => cachesMatch rest k

/-- `cache.put(key, response)`: overwrite the entry for `key`, or append
a fresh one. -/
def cachePut (c : Cache) (k : String) (r : Response) : Cache :=
  putAssoc c k r

/-- `caches.open(name)`: the named cache, or a fresh empty one. -/
def cachesOpen (storage : CacheStorage) (name : String) : Cache :=
  (findAssoc storage name).getD []

/-- Write back an opened (possibly fresh) cache into the storage. -/
def storageSet (storage : CacheStorage) (name : String) (c : Cache) : CacheStorage :=
  putAssoc storage name c

/-- `caches.delete(name)`: remove the named cache generation. -/
def cachesDelete (storage : CacheStorage) (name : String) : CacheStorage :=
  storage.filter (fun c => ¬ c.1 = name)

/-- `caches.open(CACHE_NAME).then(cache => cache.put(request, clone))`:
store a response under the request key in the current generation. -/
def cachesPutCurrent (storage : CacheStorage) (k : String) (r : Response) : CacheStorage :=
  storageSet storage CACHE_NAME (cachePut (cachesOpen storage CACHE_NAME) k r)

/-- `cache.addAll(paths)`: fetch every path and store all of them;
if any fetch fails the whole operation fails and nothing is stored
(the bulk-add primitive is atomic). `fetchFn p = none` models a failed
fetch of `p`. -/
def addAll (c : Cache) (paths : List String) (fetchFn : String → Option Response) :
    Option Cache :=
  match paths with
  | [] => some c
  | p :: rest =>
    match fetchFn p with
    | none => none
    | some r => addAll (cachePut c p r) rest fetchFn

/-- The install listener: open the current-version cache and `addAll` the
asset manifest; the install settles successfully only if `addAll` does. -/
def install (storage : CacheStorage) (fetchFn : String → Option Response) :
    Option CacheStorage :=
  (addAll (cachesOpen storage CACHE_NAME) ASSETS_TO_CACHE fetchFn).map
    (storageSet storage CACHE_NAME)

/-- The activate listener: map over `caches.keys()`, deleting every cache
whose name differs from `CACHE_NAME`; `Promise.all` awaits every deletion.
Returns the resulting storage together with the list of deleted names. -/
def activateStep (acc : CacheStorage × List String) (name : String) :
    CacheStorage × List String :=
  if name = CACHE_NAME then acc
  else (cachesDelete acc.1 name, acc.2 ++ [name])

/-- The activate listener, as the sequentialisation of the awaited
deletions over `caches.keys()`. -/
def activate (storage : CacheStorage) : CacheStorage × List String :=
  (storage.map Prod.fst).foldl activateStep (storage, [])

/-- Outcome of `fetch(event.request)`: the promise resolves with a
response (`resolved (some r)`), resolves with a null/absent response
(`resolved none`, the `!response` guard in the code), or rejects. -/
inductive NetOutcome where
  | resolved (r : Option Response)
  | rejected
deriving Repr, DecidableEq

/-- Observable result of the fetch listener: whether `respondWith` was
called, the response handed to it (`none` models an undefined response,
i.e. a visible failure), the cache storage afterwards, and whether a
network fetch was issued by the handler. -/
structure FetchResult where
  intervened : Bool
  response : Option Response
  storage : CacheStorage
  networkUsed : Bool
deriving Repr, DecidableEq

/-- The fetch listener.  Non-GET requests are skipped.  Otherwise:
`caches.match` first; on a hit return the cached response; on a miss
fetch from the network; a resolved non-cacheable response (null, non-200
status, or error type) is returned uncached; a cacheable one is returned
and a clone stored fire-and-forget into `CACHE_NAME` (the store settling
successfully exactly when `storeSucceeds`); a rejected fetch falls back
to `caches.match('/index.html')`. -/
def handleFetch (req : Request) (storage : CacheStorage) (net : NetOutcome)
    (storeSucceeds : Bool) : FetchResult :=
  if req.method ≠ "GET" then
    { intervened := false, response := none, storage := storage, networkUsed := false }
  else
    match cachesMatch storage req.url with
    | some r =>
      { intervened := true, response := some r, storage := storage, networkUsed := false }
    | none =>
      match net with
      | .rejected =>
        { intervened := true, response := cachesMatch storage "/index.html",
          storage := storage, networkUsed := true }
      | .resolved none =>
        { intervened := true, response := none, storage := storage, networkUsed := true }
      | .resolved (some r) =>
        if r.status ≠ 200 ∨ r.rtype = "error" then
          { intervened := true, response := some r, storage := storage, networkUsed := true }
        else
          { intervened := true, response := some r,
            storage := if storeSucceeds then cachesPutCurrent storage req.url r else storage,
            networkUsed := true }

/-- The canned default notification body. -/
def defaultBody : String := "New update from ShoreSquad!"

/-- `data.body || 'New update from ShoreSquad!'`: a JS falsy body field
(absent, or the empty string) yields the default. -/
def jsOrDefault (b : Option String) : String :=
  match b with
  | none => defaultBody
  | some s => if s = "" then defaultBody else s

/-- The parsed push payload object; `body` is its optional body field. -/
structure PushPayload where
  body : Option String
deriving Repr, DecidableEq

/-- The push event's data: absent (`event.data` is null), parsed to an
object, or present but failing to parse as JSON (`event.data.json()`
throws). -/
inductive PushEventData where
  | noData
  | parsed (p : PushPayload)
  | parseError
deriving Repr, DecidableEq

/-- The push listener: `const data = event.data ? event.data.json() : {}`
followed by showing a notification whose body is
`data.body || defaultBody`.  Returns the displayed body, or an error when
the handler throws (there is no try/catch around `json()`). -/
def handlePush : PushEventData → Except Unit String
  | .noData => .ok (jsOrDefault none)
  | .parsed p => .ok (jsOrDefault p.body)
  | .parseError => .error ()

lemma find?_map_replace {α : Type} (k k' : String) (v : α) (h : k' ≠ k) :
    ∀ l : List (String × α),
      (l.map (fun e => if e.1 = k then (k, v) else e)).find? (fun e => e.1 = k')
        = l.find? (fun e => e.1 = k')
  | [] => rfl
  | e :: l => by
    by_cases he : e.1 = k
    · simp only [List.map_cons, List.find?_cons, he, if_pos]
      have h1 : (decide (k = k')) = false := by simp [Ne.symm h]
      have h2 : (decide (e.1 = k')) = false := by simp [he, Ne.symm h]
      simp [h1, h2, find?_map_replace k k' v h l]
    · simp only [List.map_cons, List.find?_cons, he, if_neg, if_false]
      by_cases he' : e.1 = k'
      · simp [he']
      · simp [he', find?_map_replace k k' v h l]

lemma putAssoc_cons_ne {α : Type} (e : String × α) (l : List (String × α))
    (k : String) (v : α) (h : ¬ e.1 = k) :
    putAssoc (e :: l) k v = e :: putAssoc l k v := by
  unfold putAssoc
  by_cases hl : l.any (fun x => x.1 = k)
  · simp [List.any_cons, h, hl]
  · simp [List.any_cons, h, hl]

lemma findAssoc_putAssoc {α : Type} (k k' : String) (v : α) :
    ∀ l : List (String × α),
      findAssoc (putAssoc l k v) k' = if k' = k then some v else findAssoc l k'
  | [] => by
    by_cases h : k' = k <;> simp [putAssoc, findAssoc, h, Ne.symm]
  | e :: l => by
    by_cases he : e.1 = k
    · have hany : (e :: l).any (fun x => x.1 = k) = true := by simp [List.any_cons, he]
      unfold putAssoc
      rw [hany]
      simp only [if_true, List.map_cons, if_pos he]
      by_cases hk : k' = k
      · subst hk
        simp [findAssoc]
      · have h1 : (decide (k = k')) = false := by simp [Ne.symm hk]
        simp only [findAssoc, List.find?_cons, h1]
        rw [find?_map_replace k k' v hk l]
        have h2 : (decide (e.1 = k')) = false := by simp [he, Ne.symm hk]
        simp [hk, h2]
    · rw [putAssoc_cons_ne e l k v he]
      by_cases he' : e.1 = k'
      · have hk : ¬ k' = k := fun hh => he (hh ▸ he')
        simp [findAssoc, List.find?_cons, he', hk]
      · have h2 : (decide (e.1 = k')) = false := by simp [he']
        simp only [findAssoc, List.find?_cons, h2]
        have := findAssoc_putAssoc k k' v l
        simp only [findAssoc] at this
        simp [this, findAssoc]

lemma cacheMatch_cachePut (c : Cache) (k k' : String) (r : Response) :
    cacheMatch (cachePut c k r) k' = if k' = k then some r else cacheMatch c k' :=
  findAssoc_putAssoc k k' r c

lemma cachesOpen_storageSet (storage : CacheStorage) (name : String) (c : Cache) :
    cachesOpen (storageSet storage name c) name = c := by
  unfold cachesOpen storageSet
  rw [findAssoc_putAssoc]
  simp

lemma cacheHasKey_cachePut_self (c : Cache) (k : String) (r : Response) :
    cacheHasKey (cachePut c k r) k = true := by
  unfold cacheHasKey
  rw [cacheMatch_cachePut]
  simp

lemma cacheHasKey_cachePut (c : Cache) (k k' : String) (r : Response) :
    cacheHasKey c k = true → cacheHasKey (cachePut c k' r) k = true := by
  intro h
  unfold cacheHasKey at h ⊢
  rw [cacheMatch_cachePut]
  by_cases hk : k = k' <;> simp [hk, h]

lemma cachesMatch_eq_none_iff (k : String) :
    ∀ storage : CacheStorage,
      cachesMatch storage k = none ↔ ∀ c ∈ storage, cacheMatch c.2 k = none
  | [] => by simp [cachesMatch]
  | c :: rest => by
    unfold cachesMatch
    cases hm : cacheMatch c.2 k with
    | some r => simp [hm]
    | none => simp [hm, cachesMatch_eq_none_iff k rest]

lemma cachesMatch_isSome_iff (k : String) :
    ∀ storage : CacheStorage,
      (cachesMatch storage k).isSome ↔ ∃ c ∈ storage, (cacheMatch c.2 k).isSome
  | [] => by simp [cachesMatch]
  | c :: rest => by
    unfold cachesMatch
    cases hm : cacheMatch c.2 k with
    | some r => simp [hm]
    | none => simp [hm, cachesMatch_isSome_iff k rest]

lemma cacheMatch_cachesOpen_of_miss (storage : CacheStorage) (k name : String)
    (h : cachesMatch storage k = none) :
    cacheMatch (cachesOpen storage name) k = none := by
  unfold cachesOpen
  cases hf : findAssoc storage name with
  | none => simp [cacheMatch, findAssoc]
  | some c =>
    simp only [Option.getD_some]
    unfold findAssoc at hf
    cases hfind : storage.find? (fun e => e.1 = name) with
    | none => simp [hfind] at hf
    | some e =>
      have hmem : e ∈ storage := List.mem_of_find?_eq_some hfind
      have := (cachesMatch_eq_none_iff k storage).mp h e hmem
      simp [hfind] at hf
      rw [← hf]
      exact this

lemma addAll_isSome_iff (fetchFn : String → Option Response) :
    ∀ (paths : List String) (c : Cache),
      (addAll c paths fetchFn).isSome ↔ ∀ p ∈ paths, (fetchFn p).isSome
  | [], c => by simp [addAll]
  | p :: rest, c => by
    unfold addAll
    cases hf : fetchFn p with
    | none => simp [hf]
    | some r => simp [hf, addAll_isSome_iff fetchFn rest (cachePut c p r)]

lemma addAll_hasKey (fetchFn : String → Option Response) :
    ∀ (paths : List String) (c c' : Cache),
      addAll c paths fetchFn = some c' →
      ∀ k, (k ∈ paths ∨ cacheHasKey c k = true) → cacheHasKey c' k = true
  | [], c, c', h, k, hk => by
    simp [addAll] at h
    subst h
    rcases hk with hk | hk
    · simp at hk
    · exact hk
  | p :: rest, c, c', h, k, hk => by
    unfold addAll at h
    cases hf : fetchFn p with
    | none => simp [hf] at h
    | some r =>
      rw [hf] at h
      refine addAll_hasKey fetchFn rest (cachePut c p r) c' h k ?_
      rcases hk with hk | hk
      · rcases List.mem_cons.mp hk with hk | hk
        · subst hk
          exact Or.inr (cacheHasKey_cachePut_self c k r)
        · exact Or.inl hk
      · exact Or.inr (cacheHasKey_cachePut c k p r hk)

lemma activate_foldl_snd :
    ∀ (L : List String) (t : CacheStorage) (d : List String),
      (L.foldl activateStep (t, d)).2 = d ++ L.filter (fun n => ¬ n = CACHE_NAME)
  | [], t, d => by simp
  | a :: L, t, d => by
    by_cases ha : a = CACHE_NAME
    · simp [List.foldl_cons, activateStep, ha, activate_foldl_snd L t d]
    · simp only [List.foldl_cons, activateStep, ha, if_neg, if_false, List.filter_cons]
      rw [activate_foldl_snd L _ (d ++ [a])]
      simp [ha]

lemma activate_foldl_fst :
    ∀ (L : List String) (t : CacheStorage) (d : List String),
      (L.foldl activateStep (t, d)).1
        = t.filter (fun c => decide (c.1 = CACHE_NAME ∨ c.1 ∉ L))
  | [], t, d => by simp
  | a :: L, t, d => by
    by_cases ha : a = CACHE_NAME
    · simp only [List.foldl_cons, activateStep, ha, if_pos]
      rw [activate_foldl_fst L t d]
      refine List.filter_congr ?_
      intro c _
      by_cases hc : c.1 = CACHE_NAME <;> simp [hc, ha, List.mem_cons]
    · simp only [List.foldl_cons, activateStep, ha, if_neg, if_false]
      rw [activate_foldl_fst L _ (d ++ [a])]
      unfold cachesDelete
      rw [List.filter_filter]
      refine List.filter_congr ?_
      intro c _
      by_cases hc : c.1 = CACHE_NAME
      · simp [hc, Ne.symm ha, List.mem_cons]
      · by_cases hca : c.1 = a <;> simp [hc, hca, ha, List.mem_cons]

lemma activate_fst (storage : CacheStorage) :
    (activate storage).1 = storage.filter (fun c => decide (c.1 = CACHE_NAME)) := by
  unfold activate
  rw [activate_foldl_fst]
  refine List.filter_congr ?_
  intro c hc
  have hmem : c.1 ∈ storage.map Prod.fst := List.mem_map_of_mem Prod.fst hc
  by_cases h : c.1 = CACHE_NAME <;> simp [h, hmem]

lemma activate_snd (storage : CacheStorage) :
    (activate storage).2 = (storage.map Prod.fst).filter (fun n => ¬ n = CACHE_NAME) := by
  unfold activate
  rw [activate_foldl_snd]
  simp

/-- C1: on a GET cache miss where the network fetch resolves with a
response, the fetch handler hands that network response back unchanged,
and (when the background store settles successfully) an entry for the
request key exists in the current-version cache afterwards exactly when
the response has status 200 and a non-error type. -/
theorem fetch_miss_network_response_cached_iff (req : Request) (storage : CacheStorage)
    (r : Response) (hm : req.method = "GET")
    (hmiss : cachesMatch storage req.url = none) :
    (handleFetch req storage (.resolved (some r)) true).response = some r ∧
    (handleFetch req storage (.resolved (some r)) true).networkUsed = true ∧
    (cacheHasKey
        (cachesOpen (handleFetch req storage (.resolved (some r)) true).storage CACHE_NAME)
        req.url = true
      ↔ (r.status = 200 ∧ r.rtype ≠ "error")) := by
  by_cases hc : r.status ≠ 200 ∨ r.rtype = "error"
  · have h : handleFetch req storage (.resolved (some r)) true
        = ⟨true, some r, storage, true⟩ := by
      simp [handleFetch, hm, hmiss, hc]
    rw [h]
    have hnone := cacheMatch_cachesOpen_of_miss storage req.url CACHE_NAME hmiss
    have hiff : ¬ (r.status = 200 ∧ r.rtype ≠ "error") := by
      rcases hc with hc | hc
      · exact fun hh => hc hh.1
      · exact fun hh => hh.2 hc
    refine ⟨rfl, rfl, ?_⟩
    simp [cacheHasKey, hnone, hiff]
  · push_neg at hc
    have h : handleFetch req storage (.resolved (some r)) true
        = ⟨true, some r, cachesPutCurrent storage req.url r, true⟩ := by
      simp [handleFetch, hm, hmiss, hc.1, hc.2]
    rw [h]
    refine ⟨rfl, rfl, ?_⟩
    have hopen : cachesOpen (cachesPutCurrent storage req.url r) CACHE_NAME
        = cachePut (cachesOpen storage CACHE_NAME) req.url r :=
      cachesOpen_storageSet storage CACHE_NAME _
    simp only [hopen]
    simp [cacheHasKey_cachePut_self, hc.1, hc.2]

/-- C1 witness at a concrete miss with a cacheable response. -/
theorem fetch_miss_network_response_cached_iff_witness :
    (handleFetch ⟨"GET", "/a"⟩ [] (.resolved (some ⟨200, "basic", "x"⟩)) true).response
        = some ⟨200, "basic", "x"⟩ ∧
    (handleFetch ⟨"GET", "/a"⟩ [] (.resolved (some ⟨200, "basic", "x"⟩)) true).networkUsed
        = true ∧
    (cacheHasKey
        (cachesOpen
          (handleFetch ⟨"GET", "/a"⟩ [] (.resolved (some ⟨200, "basic", "x"⟩)) true).storage
          CACHE_NAME) "/a" = true
      ↔ ((200 : Nat) = 200 ∧ ("basic" : String) ≠ "error")) :=
  fetch_miss_network_response_cached_iff ⟨"GET", "/a"⟩ [] ⟨200, "basic", "x"⟩ rfl rfl

/-- C2: a GET request whose key is found by the cache lookup is answered
with the cached response; no network fetch is issued and the storage is
untouched, whatever the network or background-store would have done. -/
theorem fetch_hit_returns_cached_no_network (req : Request) (storage : CacheStorage)
    (net : NetOutcome) (st : Bool) (r : Response) (hm : req.method = "GET")
    (hhit : cachesMatch storage req.url = some r) :
    handleFetch req storage net st
      = { intervened := true, response := some r, storage := storage,
          networkUsed := false } := by
  simp [handleFetch, hm, hhit]

/-- C2 witness at a concrete cache hit. -/
theorem fetch_hit_returns_cached_no_network_witness :
    handleFetch ⟨"GET", "/a"⟩ [(CACHE_NAME, [("/a", ⟨200, "basic", "c"⟩)])] .rejected true
      = { intervened := true, response := some ⟨200, "basic", "c"⟩,
          storage := [(CACHE_NAME, [("/a", ⟨200, "basic", "c"⟩)])],
          networkUsed := false } :=
  fetch_hit_returns_cached_no_network ⟨"GET", "/a"⟩ _ .rejected true ⟨200, "basic", "c"⟩
    rfl rfl

/-- C3: for a non-GET request the handler returns before calling
`respondWith`: it does not intervene, consults neither cache nor network,
and leaves the storage untouched. -/
theorem fetch_non_get_passthrough (req : Request) (storage : CacheStorage)
    (net : NetOutcome) (st : Bool) (hm : req.method ≠ "GET") :
    handleFetch req storage net st
      = { intervened := false, response := none, storage := storage,
          networkUsed := false } := by
  simp [handleFetch, hm]

/-- C3 witness at a concrete POST request. -/
theorem fetch_non_get_passthrough_witness :
    handleFetch ⟨"POST", "/a"⟩ [] .rejected true
      = { intervened := false, response := none, storage := [],
          networkUsed := false } :=
  fetch_non_get_passthrough ⟨"POST", "/a"⟩ [] .rejected true (by decide)

/-- C4: on a GET cache miss whose network fetch rejects, the handler
responds with `caches.match('/index.html')` — the cached root document
when one is stored, and an undefined response (a visible failure) when it
is not. -/
theorem fetch_reject_fallback_root_document (req : Request) (storage : CacheStorage)
    (st : Bool) (hm : req.method = "GET")
    (hmiss : cachesMatch storage req.url = none) :
    handleFetch req storage .rejected st
      = { intervened := true, response := cachesMatch storage "/index.html",
          storage := storage, networkUsed := true } := by
  simp [handleFetch, hm, hmiss]

/-- C4 witness at a concrete rejected fetch with the root document cached. -/
theorem fetch_reject_fallback_root_document_witness :
    handleFetch ⟨"GET", "/missing"⟩ [(CACHE_NAME, [("/index.html", ⟨200, "basic", "home"⟩)])]
        .rejected true
      = { intervened := true,
          response := cachesMatch [(CACHE_NAME, [("/index.html", ⟨200, "basic", "home"⟩)])]
            "/index.html",
          storage := [(CACHE_NAME, [("/index.html", ⟨200, "basic", "home"⟩)])],
          networkUsed := true } :=
  fetch_reject_fallback_root_document ⟨"GET", "/missing"⟩ _ true rfl rfl

/-- C5: activation deletes exactly the cache generations whose name
differs from the current version string, so only the current generation
survives; when every existing generation already carries the current
name, activation deletes nothing and leaves the storage unchanged. -/
theorem activate_deletes_exactly_non_current (storage : CacheStorage) :
    (activate storage).2 = (storage.map Prod.fst).filter (fun n => ¬ n = CACHE_NAME) ∧
    (activate storage).1 = storage.filter (fun c => decide (c.1 = CACHE_NAME)) ∧
    ((∀ c ∈ storage, c.1 = CACHE_NAME) →
      (activate storage).1 = storage ∧ (activate storage).2 = []) := by
  refine ⟨activate_snd storage, activate_fst storage, ?_⟩
  intro hall
  constructor
  · rw [activate_fst]
    exact List.filter_eq_self.mpr (fun c hc => by simp [hall c hc])
  · rw [activate_snd]
    refine List.filter_eq_nil_iff.mpr ?_
    intro n hn
    rcases List.mem_map.mp hn with ⟨c, hc, rfl⟩
    simp [hall c hc]

/-- C5 witness: a stale generation is deleted, and activation with only
the current generation present is a no-op. -/
theorem activate_deletes_exactly_non_current_witness :
    (activate [(CACHE_NAME, ([] : Cache))]).1 = [(CACHE_NAME, ([] : Cache))] ∧
    (activate [(CACHE_NAME, ([] : Cache))]).2 = [] :=
  (activate_deletes_exactly_non_current [(CACHE_NAME, ([] : Cache))]).2.2
    (by intro c hc; simp at hc; simp [hc])

/-- C6: the install step succeeds exactly when every manifest path
fetches successfully; on success every manifest path has an entry in the
current-version cache, and a single failed manifest fetch makes the whole
install fail with no completed installation. -/
theorem install_atomic_all_or_nothing (storage : CacheStorage)
    (fetchFn : String → Option Response) :
    ((install storage fetchFn).isSome ↔ ∀ p ∈ ASSETS_TO_CACHE, (fetchFn p).isSome) ∧
    (∀ storage', install storage fetchFn = some storage' →
      ∀ p ∈ ASSETS_TO_CACHE, cacheHasKey (cachesOpen storage' CACHE_NAME) p = true) ∧
    ((∃ p ∈ ASSETS_TO_CACHE, fetchFn p = none) → install storage fetchFn = none) := by
  have hmap : (install storage fetchFn).isSome
      = (addAll (cachesOpen storage CACHE_NAME) ASSETS_TO_CACHE fetchFn).isSome := by
    unfold install
    cases addAll (cachesOpen storage CACHE_NAME) ASSETS_TO_CACHE fetchFn <;> rfl
  refine ⟨?_, ?_, ?_⟩
  · rw [hmap]
    exact addAll_isSome_iff fetchFn ASSETS_TO_CACHE _
  · intro storage' hs p hp
    unfold install at hs
    cases ha : addAll (cachesOpen storage CACHE_NAME) ASSETS_TO_CACHE fetchFn with
    | none => rw [ha] at hs; simp at hs
    | some c' =>
      rw [ha] at hs
      simp only [Option.map_some', Option.some.injEq] at hs
      subst hs
      rw [cachesOpen_storageSet]
      exact addAll_hasKey fetchFn ASSETS_TO_CACHE _ c' ha p (Or.inl hp)
  · rintro ⟨p, hp, hnone⟩
    cases hi : install storage fetchFn with
    | none => rfl
    | some s' =>
      have hsome : (install storage fetchFn).isSome = true := by simp [hi]
      rw [hmap] at hsome
      have := (addAll_isSome_iff fetchFn ASSETS_TO_CACHE _).mp hsome p hp
      simp [hnone] at this

/-- C6 witness: install with all fetches succeeding is complete; install
with a failing fetch yields no installation. -/
theorem install_atomic_all_or_nothing_witness :
    ((install [] (fun p => some ⟨200, "basic", p⟩)).isSome = true) ∧
    install [] (fun _ => none) = none := by
  constructor
  · exact ((install_atomic_all_or_nothing [] (fun p => some ⟨200, "basic", p⟩)).1).mpr
      (fun p _ => rfl)
  · exact (install_atomic_all_or_nothing [] (fun _ => none)).2.2
      ⟨"/", by decide, rfl⟩

/-- C7 counterexample: a push payload that is present but fails to parse
makes the handler raise (there is no try/catch around `json()`): the
handler errors instead of showing the default-body notification. -/
theorem push_parse_failure_raises :
    handlePush .parseError = .error () ∧
    ¬ handlePush .parseError = .ok defaultBody :=
  ⟨rfl, fun h => nomatch h⟩

/-- C7 amended: the empty object (hence the default body) is substituted
only when the push payload is absent; a present but unparsable payload
raises out of the handler and no notification is displayed. -/
theorem push_default_only_when_payload_absent :
    handlePush .noData = .ok defaultBody ∧
    handlePush .parseError = .error () :=
  ⟨rfl, rfl⟩

/-- C8: on a GET cache miss with a cacheable network response, a failed
background cache store leaves the delivered response identical to the
successful-store run, and no error reaches the caller: the handler still
returns the network response and merely leaves the storage unchanged. -/
theorem fetch_store_failure_swallowed (req : Request) (storage : CacheStorage)
    (r : Response) (hm : req.method = "GET")
    (hmiss : cachesMatch storage req.url = none)
    (hs : r.status = 200) (ht : r.rtype ≠ "error") :
    (handleFetch req storage (.resolved (some r)) false).response = some r ∧
    (handleFetch req storage (.resolved (some r)) false).storage = storage ∧
    (handleFetch req storage (.resolved (some r)) false).response
      = (handleFetch req storage (.resolved (some r)) true).response := by
  have h1 : handleFetch req storage (.resolved (some r)) false
      = ⟨true, some r, storage, true⟩ := by
    simp [handleFetch, hm, hmiss, hs, ht]
  have h2 : handleFetch req storage (.resolved (some r)) true
      = ⟨true, some r, cachesPutCurrent storage req.url r, true⟩ := by
    simp [handleFetch, hm, hmiss, hs, ht]
  rw [h1, h2]
  exact ⟨rfl, rfl, rfl⟩

/-- C8 witness at a concrete miss with a failing background store. -/
theorem fetch_store_failure_swallowed_witness :
    (handleFetch ⟨"GET", "/a"⟩ [] (.resolved (some ⟨200, "basic", "x"⟩)) false).response
        = some ⟨200, "basic", "x"⟩ ∧
    (handleFetch ⟨"GET", "/a"⟩ [] (.resolved (some ⟨200, "basic", "x"⟩)) false).storage = [] ∧
    (handleFetch ⟨"GET", "/a"⟩ [] (.resolved (some ⟨200, "basic", "x"⟩)) false).response
      = (handleFetch ⟨"GET", "/a"⟩ [] (.resolved (some ⟨200, "basic", "x"⟩)) true).response :=
  fetch_store_failure_swallowed ⟨"GET", "/a"⟩ [] ⟨200, "basic", "x"⟩ rfl rfl rfl (by decide)

/-- C9 counterexample: the lookup is `caches.match` over every cache
generation, so a key stored only under the stale generation
`shoresquad-v0` still produces a cache hit (cached response returned, no
network fetch), contradicting a current-generation-only lookup. -/
theorem fetch_hit_from_stale_generation :
    ¬ ("shoresquad-v0" = CACHE_NAME) ∧
    handleFetch ⟨"GET", "/a"⟩ [("shoresquad-v0", [("/a", ⟨200, "basic", "old"⟩)])]
        .rejected true
      = { intervened := true, response := some ⟨200, "basic", "old"⟩,
          storage := [("shoresquad-v0", [("/a", ⟨200, "basic", "old"⟩)])],
          networkUsed := false } := by
  exact ⟨by decide, by decide⟩

/-- C9 amended: step 1 looks the request up with `caches.match`, i.e.
across all existing cache generations in order; an entry for the key in
any generation — current or stale — produces a cache hit that is returned
with no network fetch. -/
theorem fetch_lookup_searches_all_generations (req : Request) (storage : CacheStorage)
    (net : NetOutcome) (st : Bool) (hm : req.method = "GET")
    (hhit : ∃ c ∈ storage, (cacheMatch c.2 req.url).isSome = true) :
    (handleFetch req storage net st).networkUsed = false ∧
    (handleFetch req storage net st).response = cachesMatch storage req.url ∧
    ((handleFetch req storage net st).response).isSome = true := by
  have hsome : (cachesMatch storage req.url).isSome :=
    (cachesMatch_isSome_iff req.url storage).mpr hhit
  rcases Option.isSome_iff_exists.mp hsome with ⟨r, hr⟩
  have h : handleFetch req storage net st
      = ⟨true, some r, storage, false⟩ := by
    simp [handleFetch, hm, hr]
  rw [h, hr]
  exact ⟨rfl, rfl, rfl⟩

/-- C9 amended witness: a hit served from a stale generation. -/
theorem fetch_lookup_searches_all_generations_witness :
    (handleFetch ⟨"GET", "/a"⟩ [("shoresquad-v0", [("/a", ⟨200, "basic", "old"⟩)])]
        (.resolved none) true).networkUsed = false ∧
    (handleFetch ⟨"GET", "/a"⟩ [("shoresquad-v0", [("/a", ⟨200, "basic", "old"⟩)])]
        (.resolved none) true).response
      = cachesMatch [("shoresquad-v0", [("/a", ⟨200, "basic", "old"⟩)])] "/a" ∧
    ((handleFetch ⟨"GET", "/a"⟩ [("shoresquad-v0", [("/a", ⟨200, "basic", "old"⟩)])]
        (.resolved none) true).response).isSome = true :=
  fetch_lookup_searches_all_generations ⟨"GET", "/a"⟩ _ (.resolved none) true rfl
    ⟨("shoresquad-v0", [("/a", ⟨200, "basic", "old"⟩)]), by decide, rfl⟩

/-- C10: a push payload that parses to an object whose body field is the
empty string displays the canned default body — the JS `||` default
applies to any falsy body, not only an absent one. -/
theorem push_empty_body_uses_default (p : PushPayload) (h : p.body = some "") :
    handlePush (.parsed p) = .ok defaultBody := by
  simp [handlePush, jsOrDefault, h]

/-- C10 witness at the concrete empty-string body. -/
theorem push_empty_body_uses_default_witness :
    handlePush (.parsed ⟨some ""⟩) = .ok defaultBody :=
  push_empty_body_uses_default ⟨some ""⟩ rfl

end ShoreSquadSW
